import Mathlib

/-!
Verification development for the RFT Architect puzzle-generation engine
(`src/App.tsx`).  The generators, the geometry helpers, the cipher subsystem
and the adaptive-difficulty loop are shallowly embedded as executable Lean
definitions; every random draw made by the original code (`Math.random`
coins, uniform indices, the random comparator handed to `Array.sort`) is
made an explicit parameter, so each definition is a pure function of the
drawn values.
-/

namespace RftArchitect

/-- A premise links two symbols via a relation keyword.  The source renders a
premise as a string `a rel b`; the embedding keeps the three components. -/
structure Premise where
  left  : String
  rel   : String
  right : String
deriving DecidableEq

/-- The direction-swap table of `invertSpatial` applied to a single
relation word: the `map` record lookup with the `|| p` fallback for words
that are not in the table. -/
def invertDir (p : String) : String :=
  if p = "NORTH" then "SOUTH"
  else if p = "SOUTH" then "NORTH"
  else if p = "EAST" then "WEST"
  else if p = "WEST" then "EAST"
  else if p = "ABOVE" then "BELOW"
  else if p = "BELOW" then "ABOVE"
  else if p = "LEFT" then "RIGHT"
  else if p = "RIGHT" then "LEFT"
  else if p = "FRONT" then "BEHIND"
  else if p = "BEHIND" then "FRONT"
  else if p = "SAME LOCATION" then "SAME LOCATION"
  else p

/-- `invertSpatial` from the source.  A combined relation string such as
`"NORTH and WEST"` is represented by its list of `" and "`-separated chunks
(`["NORTH", "WEST"]`), and a single relation by a one-element list; this is
faithful because no direction word contains the separator `" and "`.  On
that representation the split / map-each-part / re-join of the source is
exactly a `List.map` of the single-word table. -/
def invertSpatial (parts : List String) : List String :=
  parts.map invertDir

/-- The shared FRONT / BEHIND / RIGHT / LEFT / SAME LOCATION classification
of a local displacement, used verbatim by both the Deictic and the Movement
sub-modes (the source initialises the result to `""` and falls back to
`"SAME LOCATION"` when no branch fired, which is the trailing else here). -/
def classifyBearing (localX localY : Int) : String :=
  if localY > 0 ∧ |localX| ≤ localY then "FRONT"
  else if localY < 0 ∧ |localX| ≤ |localY| then "BEHIND"
  else if localX > 0 then "RIGHT"
  else if localX < 0 then "LEFT"
  else "SAME LOCATION"

/-- The Deictic sub-mode's rotation of a world displacement `(diffX, diffY)`
into the local frame of an observer facing `facingDir`
(0 = NORTH, 1 = EAST, 2 = SOUTH, 3 = WEST).  The source initialises
`localX = 0, localY = 0` and overwrites them in an if-chain; the final else
returns the initial pair. -/
def deicticLocal (facingDir : Nat) (diffX diffY : Int) : Int × Int :=
  if facingDir = 0 then (diffX, diffY)
  else if facingDir = 1 then (-diffY, diffX)
  else if facingDir = 2 then (-diffX, -diffY)
  else if facingDir = 3 then (diffY, -diffX)
  else (0, 0)

/-- The Movement sub-mode's rotation of the displacement `(relX, relY)` from
the walker's final position to the target, into the walker's local frame for
final heading `heading` (same 0-3 encoding). -/
def movementLocal (heading : Nat) (relX relY : Int) : Int × Int :=
  if heading = 0 then (relX, relY)
  else if heading = 1 then (relY, -relX)
  else if heading = 2 then (-relX, -relY)
  else if heading = 3 then (-relY, relX)
  else (0, 0)

/-- The world-coordinate delta of one `WALK 1.` step at a given heading
(`curY++` for NORTH, `curX++` for EAST, `curY--` for SOUTH, `curX--` for
WEST). -/
def walkDelta (heading : Nat) : Int × Int :=
  if heading = 0 then (0, 1)
  else if heading = 1 then (1, 0)
  else if heading = 2 then (0, -1)
  else if heading = 3 then (-1, 0)
  else (0, 0)

/-- The Deictic sub-mode's `trueLocalRel`: classification of the rotated
displacement. -/
def deicticTrueRel (facingDir : Nat) (diffX diffY : Int) : String :=
  classifyBearing (deicticLocal facingDir diffX diffY).1
    (deicticLocal facingDir diffX diffY).2

/-- The Movement sub-mode's `trueRel`: classification of its rotated
displacement. -/
def movementTrueRel (heading : Nat) (relX relY : Int) : String :=
  classifyBearing (movementLocal heading relX relY).1
    (movementLocal heading relX relY).2

lemma invertDir_invertDir (p : String) : invertDir (invertDir p) = p := by
  by_cases h1 : p = "NORTH"
  · subst h1; decide
  by_cases h2 : p = "SOUTH"
  · subst h2; decide
  by_cases h3 : p = "EAST"
  · subst h3; decide
  by_cases h4 : p = "WEST"
  · subst h4; decide
  by_cases h5 : p = "ABOVE"
  · subst h5; decide
  by_cases h6 : p = "BELOW"
  · subst h6; decide
  by_cases h7 : p = "LEFT"
  · subst h7; decide
  by_cases h8 : p = "RIGHT"
  · subst h8; decide
  by_cases h9 : p = "FRONT"
  · subst h9; decide
  by_cases h10 : p = "BEHIND"
  · subst h10; decide
  by_cases h11 : p = "SAME LOCATION"
  · subst h11; decide
  · simp [invertDir, h1, h2, h3, h4, h5, h6, h7, h8, h9, h10, h11]

/-- Claim C1 (code bug): the Movement sub-mode does not rotate displacements
with the same rule as the Deictic sub-mode.  Failing input: final heading
EAST, target displaced by exactly one forward walking step `(1, 0)`.
Deictic rotates this to `(0, 1)` and classifies FRONT (matching the spec's
facing-E rule `(-dy, dx)`); Movement rotates it to `(0, -1)` and classifies
BEHIND, so the target the walker is looking straight at is graded as being
behind the walker. -/
theorem movement_rotation_contradicts_deictic :
    walkDelta 1 = (1, 0) ∧
    deicticLocal 1 1 0 = (0, 1) ∧
    movementLocal 1 1 0 = (0, -1) ∧
    deicticTrueRel 1 1 0 = "FRONT" ∧
    movementTrueRel 1 1 0 = "BEHIND" ∧
    movementTrueRel 1 1 0 ≠ deicticTrueRel 1 1 0 := by
  refine ⟨by decide, by decide, by decide, by decide, by decide, by decide⟩

/-- Claim C8: `invertSpatial` is an involution on every relation it handles:
on every single direction word (via the table, unknown words being fixed
points of the fallback) and hence on every `" and "`-joined multi-axis
combination, represented as its chunk list; `"SAME LOCATION"` is a fixed
point. -/
theorem invertSpatial_involutive (parts : List String) :
    invertSpatial (invertSpatial parts) = parts ∧
    (∀ p : String, invertDir (invertDir p) = p) ∧
    invertDir "SAME LOCATION" = "SAME LOCATION" := by
  refine ⟨?_, invertDir_invertDir, by decide⟩
  simp only [invertSpatial, List.map_map]
  have : (invertDir ∘ invertDir) = fun p => p := by
    funext p; exact invertDir_invertDir p
  simp [this]

/-- The output of one non-spatial round of `generateLogic`: the (shuffled)
premise list and the stored ground-truth answer. -/
structure RoundOut where
  premises : List Premise
  answer : Bool

/-- The Linear premise chain: for each link `i` the premise
`items[i] is GREATER/LESS than items[i+1]`, the label drawn independently
per link (`rels[i] = true` standing for the `Math.random() > 0.5` draw that
picks GREATER). -/
def linearChainPremises (items : List String) (rels : List Bool) : List Premise :=
  (List.range rels.length).map fun i =>
    ⟨items.getD i "", if rels.getD i true then "GREATER" else "LESS", items.getD (i + 1) ""⟩

/-- The LINEAR branch of `generateLogic`.  `shuffle` is the random
permutation applied by `shuffleArray` on return; `idxA, idxB` are the two
sampled query indices; `qGreater` is the query-keyword coin
(GREATER when true); `isNight` is the round's night flag. -/
def generateLinear (shuffle : List Premise → List Premise) (items : List String)
    (rels : List Bool) (idxA idxB : Nat) (qGreater isNight : Bool) : RoundOut :=
  let base := if qGreater then decide (idxA < idxB) else decide (idxA > idxB)
  { premises := shuffle (linearChainPremises items rels)
    answer := if isNight then !base else base }

/-- The Distinction value chain: `values[0]` is the random start value and
`values[i+1]` equals `values[i]` for a SAME link (`sames[i] = true`) and is
flipped for a DIFFERENT link (the source's `1 - values[i]` on 0/1 values). -/
def chainValues (v0 : Bool) : List Bool → List Bool
  | [] => [v0]
  | s :: rest => v0 :: chainValues (if s then v0 else !v0) rest

/-- The Distinction premise chain: for each link `i` the premise
`items[i] SAME/DIFFERENT items[i+1]`. -/
def distinctionChainPremises (items : List String) (sames : List Bool) : List Premise :=
  (List.range sames.length).map fun i =>
    ⟨items.getD i "", if sames.getD i true then "SAME" else "DIFFERENT", items.getD (i + 1) ""⟩

/-- The DISTINCTION branch of `generateLogic`: value chain, per-link
premises, and the query comparing `values[idxA]` with `values[idxB]` under
the SAME/DIFFERENT query keyword (`qSame`). -/
def generateDistinction (shuffle : List Premise → List Premise) (items : List String)
    (v0 : Bool) (sames : List Bool) (idxA idxB : Nat) (qSame isNight : Bool) : RoundOut :=
  let values := chainValues v0 sames
  let base :=
    if qSame then values.getD idxA false == values.getD idxB false
    else values.getD idxA false != values.getD idxB false
  { premises := shuffle (distinctionChainPremises items sames)
    answer := if isNight then !base else base }

/-- The Hierarchy premise chain: `items[i] CONTAINS items[i+1]` for every
link, with no randomized reversal. -/
def hierarchyChainPremises (items : List String) (num : Nat) : List Premise :=
  (List.range num).map fun i => ⟨items.getD i "", "CONTAINS", items.getD (i + 1) ""⟩

/-- The HIERARCHY branch of `generateLogic`: `askInside` is the coin that
chooses the INSIDE phrasing over the CONTAINS phrasing. -/
def generateHierarchy (shuffle : List Premise → List Premise) (items : List String)
    (num idxA idxB : Nat) (askInside isNight : Bool) : RoundOut :=
  let base := if askInside then decide (idxA > idxB) else decide (idxA < idxB)
  { premises := shuffle (hierarchyChainPremises items num)
    answer := if isNight then !base else base }

/-- Claim C2, counterexample: the claim predicts that a GREATER query is
true iff `idxA > idxB` (earlier index = lesser).  At `idxA = 0, idxB = 1`
with query keyword GREATER and no night inversion the code stores answer
`true` although `0 > 1` is false. -/
theorem linear_earlier_lesser_refuted :
    (generateLinear id ["A", "B"] [true] 0 1 true false).answer = true ∧
    ¬ ((0 : Nat) > 1) := by
  refine ⟨by decide, by decide⟩

/-- Claim C2 as amended: for every Linear round without night-mode
inversion, the ground truth is computed directly from the index order of the
two sampled items with earlier index = GREATER: a GREATER query is true iff
`idxA < idxB` and a LESS query is true iff `idxA > idxB`, independent of the
randomly chosen per-link GREATER/LESS premise labels (`rels`) and of the
premise shuffle. -/
theorem linear_ground_truth_from_index_order (shuffle : List Premise → List Premise)
    (items : List String) (rels : List Bool) (idxA idxB : Nat) (qGreater : Bool) :
    ((generateLinear shuffle items rels idxA idxB qGreater false).answer = true ↔
      (if qGreater = true then idxA < idxB else idxB < idxA)) := by
  cases qGreater <;> simp [generateLinear]

lemma chainValues_length (v0 : Bool) (sames : List Bool) :
    (chainValues v0 sames).length = sames.length + 1 := by
  induction sames generalizing v0 with
  | nil => rfl
  | cons s rest ih => simp [chainValues, ih]

lemma chainValues_getD_zero (v0 : Bool) (sames : List Bool) :
    (chainValues v0 sames).getD 0 false = v0 := by
  cases sames <;> rfl

/-- Any value list satisfying the claim's chain rule (length, start value,
per-link recurrence) is exactly the chain the generator builds. -/
lemma chainValues_unique (sames : List Bool) : ∀ (v0 : Bool) (values : List Bool),
    values.length = sames.length + 1 →
    values.getD 0 false = v0 →
    (∀ i, i < sames.length →
      values.getD (i + 1) false =
        if sames.getD i true then values.getD i false else !(values.getD i false)) →
    values = chainValues v0 sames := by
  induction sames with
  | nil =>
    intro v0 values hlen h0 _
    match values, hlen with
    | [v], _ =>
      have : v = v0 := by simpa using h0
      simp [chainValues, this]
  | cons s rest ih =>
    intro v0 values hlen h0 hstep
    match values, hlen with
    | v :: vrest, hlen =>
      have hv : v = v0 := by simpa using h0
      have hrest : vrest = chainValues (if s then v0 else !v0) rest := by
        apply ih
        · simpa using hlen
        · have h1 := hstep 0 (by simp)
          simpa [hv] using h1
        · intro i hi
          have h2 := hstep (i + 1) (by simpa using Nat.succ_lt_succ hi)
          simpa using h2
      simp [chainValues, hv, hrest]

/-- Claim C4: for every Distinction round without night-mode inversion, and
for the boolean value chain described by the claim (`values[0]` the random
start value, `values[i+1]` equal to `values[i]` for a SAME link and flipped
for a DIFFERENT one), the stored answer equals
`values[idxA] == values[idxB]` when the query keyword is SAME and
`values[idxA] != values[idxB]` when it is DIFFERENT. -/
theorem distinction_answer_correct (shuffle : List Premise → List Premise)
    (items : List String) (v0 : Bool) (sames : List Bool) (idxA idxB : Nat)
    (qSame : Bool) (values : List Bool)
    (hlen : values.length = sames.length + 1)
    (h0 : values.getD 0 false = v0)
    (hstep : ∀ i, i < sames.length →
      values.getD (i + 1) false =
        if sames.getD i true then values.getD i false else !(values.getD i false)) :
    ((generateDistinction shuffle items v0 sames idxA idxB qSame false).answer = true ↔
      (if qSame = true then values.getD idxA false = values.getD idxB false
       else values.getD idxA false ≠ values.getD idxB false)) := by
  have hv := chainValues_unique sames v0 values hlen h0 hstep
  cases qSame <;> simp [generateDistinction, ← hv]

/-- Witness for C4, the spec's concrete scenario 1: start value 1 and links
SAME, DIFFERENT give the value chain 1, 1, 0, and the DIFFERENT query on
indices 0 and 2 is answered YES. -/
theorem distinction_answer_correct_witness :
    (generateDistinction id [] true [true, false] 0 2 false false).answer = true :=
  (distinction_answer_correct id [] true [true, false] 0 2 false
    [true, true, false] (by decide) (by decide)
    (by
      intro i hi
      simp only [List.length_cons, List.length_nil] at hi
      interval_cases i <;> decide)).mpr (by decide)

/-- Claim C5: for every Hierarchy round without night-mode inversion, the
premises are (a permutation of) the strict chain
`items[i] CONTAINS items[i+1]` for all `i`, with no randomized reversal,
and an INSIDE query is answered `idxA > idxB` while a CONTAINS query is
answered `idxA < idxB`. -/
theorem hierarchy_answer_correct (shuffle : List Premise → List Premise)
    (items : List String) (num idxA idxB : Nat) (askInside : Bool)
    (hs : ∀ l, List.Perm (shuffle l) l) :
    List.Perm (generateHierarchy shuffle items num idxA idxB askInside false).premises
      ((List.range num).map fun i =>
        ⟨items.getD i "", "CONTAINS", items.getD (i + 1) ""⟩) ∧
    ((generateHierarchy shuffle items num idxA idxB askInside false).answer = true ↔
      (if askInside = true then idxB < idxA else idxA < idxB)) := by
  constructor
  · exact hs _
  · cases askInside <;> simp [generateHierarchy]

/-- Witness for C5, matching the spec's concrete scenario 2 up to direction:
with the chain A CONTAINS B CONTAINS C, the INSIDE query on indices 2 and 0
is answered YES, and the premises are a permutation of the chain. -/
theorem hierarchy_answer_correct_witness :
    (generateHierarchy id ["A", "B", "C"] 2 2 0 true false).answer = true ∧
    List.Perm (generateHierarchy id ["A", "B", "C"] 2 2 0 true false).premises
      ((List.range 2).map fun i =>
        ⟨(["A", "B", "C"] : List String).getD i "", "CONTAINS",
          (["A", "B", "C"] : List String).getD (i + 1) ""⟩) :=
  ⟨(hierarchy_answer_correct id ["A", "B", "C"] 2 2 0 true
      (fun l => List.Perm.refl l)).2.mpr (by decide),
   (hierarchy_answer_correct id ["A", "B", "C"] 2 2 0 true
      (fun l => List.Perm.refl l)).1⟩

/-- An integer lattice position; `z` is only stepped in 3D mode. -/
structure Pos3 where
  x : Int
  y : Int
  z : Int
deriving DecidableEq

/-- The per-step delta of the spatial walk for a drawn direction code
(0 NORTH, 1 SOUTH, 2 EAST, 3 WEST, 4 ABOVE, 5 BELOW; codes 4-5 are drawn
only in 3D mode). -/
def dirDelta (dir : Nat) : Pos3 :=
  if dir = 0 then ⟨0, 1, 0⟩
  else if dir = 1 then ⟨0, -1, 0⟩
  else if dir = 2 then ⟨1, 0, 0⟩
  else if dir = 3 then ⟨-1, 0, 0⟩
  else if dir = 4 then ⟨0, 0, 1⟩
  else if dir = 5 then ⟨0, 0, -1⟩
  else ⟨0, 0, 0⟩

/-- The premise keyword of a drawn direction code (the source initialises
`text = ""` before the switch). -/
def dirText (dir : Nat) : String :=
  if dir = 0 then "NORTH"
  else if dir = 1 then "SOUTH"
  else if dir = 2 then "EAST"
  else if dir = 3 then "WEST"
  else if dir = 4 then "ABOVE"
  else if dir = 5 then "BELOW"
  else ""

/-- Componentwise position addition (the source's `cx += dx; cy += dy;
cz += dz`). -/
def addPos (p q : Pos3) : Pos3 :=
  ⟨p.x + q.x, p.y + q.y, p.z + q.z⟩

/-- The position list of the spatial walk: item 0 at the origin, each later
item offset from the previous one by the drawn unit step. -/
def spatialPositions (dirs : List Nat) : List Pos3 :=
  List.scanl (fun p d => addPos p (dirDelta d)) ⟨0, 0, 0⟩ dirs

/-- The spatial premise chain: one premise `items[i+1] <DIR> items[i]` per
step. -/
def spatialChainPremises (items : List String) (dirs : List Nat) : List Premise :=
  (List.range dirs.length).map fun i =>
    ⟨items.getD (i + 1) "", dirText (dirs.getD i 0), items.getD i ""⟩

/-- The STANDARD sub-mode's true relation set for the signed per-axis
displacement from item A to item B: z first (3D only), then y, then x; an
empty list stands for SAME LOCATION. -/
def standardParts (is3D : Bool) (diffX diffY diffZ : Int) : List String :=
  (if is3D then
    (if diffZ > 0 then ["ABOVE"] else if diffZ < 0 then ["BELOW"] else [])
   else []) ++
  (if diffY > 0 then ["NORTH"] else if diffY < 0 then ["SOUTH"] else []) ++
  (if diffX > 0 then ["EAST"] else if diffX < 0 then ["WEST"] else [])

/-- A constructed spatial query: the direction word that was asked about and
the stored ground-truth answer. -/
structure SpatialQuery where
  asked : String
  answer : Bool

/-- The STANDARD sub-mode's query construction.  Under night mode the
relation set is inverted componentwise before sampling.  `coin` is the
50% draw; `pick` selects the asked member of the effective set (the source
draws a uniform in-range index, modelled as `pick` mod the length); `fake`
is the direction produced by the rejection loop, which by construction lies
outside the effective set. -/
def standardSpatialQuery (parts : List String) (isNight coin : Bool)
    (pick : Nat) (fake : String) : SpatialQuery :=
  let effectiveParts := if isNight then parts.map invertDir else parts
  if effectiveParts.length > 0 ∧ coin then
    { asked := effectiveParts.getD (pick % effectiveParts.length) "", answer := true }
  else
    { asked := fake, answer := false }

/-- The Deictic and Movement sub-modes' shared query construction on their
single true bearing: under night mode the bearing is inverted before the
50/50 true/false sampling; `fake` is the rejection-sampled bearing distinct
from the effective one. -/
def bearingQuery (trueRel : String) (isNight coin : Bool) (fake : String) : SpatialQuery :=
  let effectiveRel := if isNight then invertDir trueRel else trueRel
  if coin then { asked := effectiveRel, answer := true }
  else { asked := fake, answer := false }

/-- The STANDARD spatial branch of `generateLogic` end to end: the walk, the
displacement between the two sampled items, the (possibly night-inverted)
relation set, the query, and the shuffled premise chain. -/
def generateSpatialStandard (shuffle : List Premise → List Premise)
    (items : List String) (dirs : List Nat) (is3D : Bool) (idxA idxB : Nat)
    (isNight coin : Bool) (pick : Nat) (fake : String) :
    List Premise × SpatialQuery :=
  let positions := spatialPositions dirs
  let pA := positions.getD idxA ⟨0, 0, 0⟩
  let pB := positions.getD idxB ⟨0, 0, 0⟩
  let parts := standardParts is3D (pB.x - pA.x) (pB.y - pA.y) (pB.z - pA.z)
  (shuffle (spatialChainPremises items dirs),
   standardSpatialQuery parts isNight coin pick fake)

/-- The spatial sub-mode pool: STANDARD, plus DEICTIC when enabled, plus
MOVEMENT when enabled and the round is 2D; when any modifier sub-mode is
present, STANDARD is filtered out. -/
def availableTypes (enableDeictic enableMovement is3D : Bool) : List String :=
  let t1 := ["STANDARD"]
  let t2 := if enableDeictic then t1 ++ ["DEICTIC"] else t1
  let t3 := if enableMovement ∧ ¬is3D then t2 ++ ["MOVEMENT"] else t2
  if t3.length > 1 then t3.filter (fun s => s ≠ "STANDARD") else t3

/-- The sub-mode drawn for a spatial round: a uniform in-range index into
the pool, modelled as `pick` mod the pool size. -/
def selectedType (enableDeictic enableMovement is3D : Bool) (pick : Nat) : String :=
  (availableTypes enableDeictic enableMovement is3D).getD
    (pick % (availableTypes enableDeictic enableMovement is3D).length) ""

lemma getD_mem_of_lt {α : Type} (l : List α) (d : α) (i : Nat) (h : i < l.length) :
    l.getD i d ∈ l := by
  rw [List.getD_eq_getElem l d h]
  exact List.getElem_mem h

/-- Claim C3: with night mode active, Spatial rounds invert each directional
component of the relation (the swap table mapping N and S, E and W, ABOVE
and BELOW, LEFT and RIGHT, FRONT and BEHIND to each other and fixing SAME
LOCATION) before the true/false query sampling, so the stored answer is
true exactly when the asked direction belongs to the inverted relation
(set, for STANDARD; single bearing, for DEICTIC and MOVEMENT); for Linear,
Distinction and Hierarchy rounds the night answer is the direct negation of
the same round's non-night answer. -/
theorem night_inversion_semantics
    (parts : List String) (coin : Bool) (pick : Nat) (fake : String)
    (trueRel fakeB : String)
    (shuffle : List Premise → List Premise) (items : List String)
    (rels sames : List Bool) (v0 : Bool) (num idxA idxB : Nat)
    (qGreater qSame askInside : Bool)
    (hfake : fake ∉ invertSpatial parts)
    (hfakeB : fakeB ≠ invertDir trueRel) :
    ((standardSpatialQuery parts true coin pick fake).answer = true ↔
      (standardSpatialQuery parts true coin pick fake).asked ∈ invertSpatial parts) ∧
    ((bearingQuery trueRel true coin fakeB).answer = true ↔
      (bearingQuery trueRel true coin fakeB).asked = invertDir trueRel) ∧
    (invertDir "NORTH" = "SOUTH" ∧ invertDir "SOUTH" = "NORTH" ∧
     invertDir "EAST" = "WEST" ∧ invertDir "WEST" = "EAST" ∧
     invertDir "ABOVE" = "BELOW" ∧ invertDir "BELOW" = "ABOVE" ∧
     invertDir "LEFT" = "RIGHT" ∧ invertDir "RIGHT" = "LEFT" ∧
     invertDir "FRONT" = "BEHIND" ∧ invertDir "BEHIND" = "FRONT" ∧
     invertDir "SAME LOCATION" = "SAME LOCATION") ∧
    ((generateLinear shuffle items rels idxA idxB qGreater true).answer =
      !(generateLinear shuffle items rels idxA idxB qGreater false).answer) ∧
    ((generateDistinction shuffle items v0 sames idxA idxB qSame true).answer =
      !(generateDistinction shuffle items v0 sames idxA idxB qSame false).answer) ∧
    ((generateHierarchy shuffle items num idxA idxB askInside true).answer =
      !(generateHierarchy shuffle items num idxA idxB askInside false).answer) := by
  refine ⟨?_, ?_, by decide, by simp [generateLinear], by simp [generateDistinction],
    by simp [generateHierarchy]⟩
  · by_cases hc : ((parts.map invertDir).length > 0 ∧ coin = true)
    · have hne : parts ≠ [] := by
        intro hnil
        rw [hnil] at hc
        simp at hc
      have hq : standardSpatialQuery parts true coin pick fake =
          { asked := (parts.map invertDir).getD (pick % (parts.map invertDir).length) "",
            answer := true } := by
        simp [standardSpatialQuery, hc.2, hne]
      rw [hq]
      simpa [invertSpatial] using
        getD_mem_of_lt (parts.map invertDir) "" _ (Nat.mod_lt _ hc.1)
    · have hq : standardSpatialQuery parts true coin pick fake =
          { asked := fake, answer := false } := by
        rcases not_and_or.mp hc with hlen | hcoin
        · have h0 : parts.length = 0 := by
            have hle := Nat.le_zero.mp (Nat.not_lt.mp hlen)
            simpa using hle
          have hnil : parts = [] := List.eq_nil_of_length_eq_zero h0
          simp [standardSpatialQuery, hnil]
        · have hc2 : coin = false := by
            simpa using hcoin
          simp [standardSpatialQuery, hc2]
      rw [hq]
      simpa [invertSpatial] using hfake
  · by_cases hc : coin = true
    · simp [bearingQuery, hc]
    · simp [bearingQuery, hc, hfakeB]

/-- Witness for C3: a one-step walk NORTH under night mode; the inverted
relation set is SOUTH, and the sampled query's answer agrees with
membership in it (the spec's concrete scenario 4). -/
theorem night_inversion_semantics_witness :
    (standardSpatialQuery ["NORTH"] true true 0 "EAST").answer = true ↔
      (standardSpatialQuery ["NORTH"] true true 0 "EAST").asked ∈
        invertSpatial ["NORTH"] :=
  (night_inversion_semantics ["NORTH"] true 0 "EAST" "FRONT" "LEFT" id [] [] [] true
    0 0 1 false false false (by decide) (by decide)).1

lemma availableTypes_ff (is3D : Bool) : availableTypes false false is3D = ["STANDARD"] := by
  cases is3D <;> decide

lemma availableTypes_tf (is3D : Bool) : availableTypes true false is3D = ["DEICTIC"] := by
  cases is3D <;> decide

lemma availableTypes_ft3 : availableTypes false true true = ["STANDARD"] := by decide

lemma availableTypes_ft2 : availableTypes false true false = ["MOVEMENT"] := by decide

lemma availableTypes_tt3 : availableTypes true true true = ["DEICTIC"] := by decide

lemma availableTypes_tt2 : availableTypes true true false = ["DEICTIC", "MOVEMENT"] := by
  decide

/-- Claim C7, counterexample: in a 3D spatial round with the Movement
modifier enabled (and Deictic disabled) the Movement sub-mode is not added
to the pool, so the selected sub-mode is STANDARD even though a modifier is
enabled — refuting the claim that with either modifier enabled the selected
sub-mode is never STANDARD for every spatial round, 2D or 3D. -/
theorem submode_standard_despite_movement :
    selectedType false true true 0 = "STANDARD" := by decide

/-- Claim C7 as amended: if neither Deictic nor Movement is enabled the
sub-mode is always STANDARD; Movement only applies to 2D rounds, so a 3D
round with Deictic disabled is also always STANDARD; and whenever an
applicable modifier is enabled (Deictic, or Movement in a 2D round) the
sub-mode is never STANDARD and is one of the enabled applicable modifier
sub-modes. -/
theorem submode_selection_characterization (ed em is3D : Bool) (pick : Nat) :
    (ed = false ∧ em = false → selectedType ed em is3D pick = "STANDARD") ∧
    (ed = false ∧ is3D = true → selectedType ed em is3D pick = "STANDARD") ∧
    ((ed = true ∨ (em = true ∧ is3D = false)) →
      selectedType ed em is3D pick ≠ "STANDARD" ∧
      selectedType ed em is3D pick ∈
        (if ed = true then ["DEICTIC"] else []) ++
          (if em = true ∧ is3D = false then ["MOVEMENT"] else [])) := by
  refine ⟨?_, ?_, ?_⟩
  · rintro ⟨he, hm⟩
    subst he; subst hm
    simp [selectedType, availableTypes_ff, Nat.mod_one]
  · rintro ⟨he, h3⟩
    subst he; subst h3
    cases em
    · simp [selectedType, availableTypes_ff, Nat.mod_one]
    · simp [selectedType, availableTypes_ft3, Nat.mod_one]
  · intro h
    cases ed
    · cases em
      · rcases h with h | h
        · exact absurd h (by decide)
        · exact absurd h.1 (by decide)
      · cases is3D
        · simp [selectedType, availableTypes_ft2, Nat.mod_one]
        · rcases h with h | h
          · exact absurd h (by decide)
          · exact absurd h.2 (by decide)
    · cases em
      · simp [selectedType, availableTypes_tf, Nat.mod_one]
      · cases is3D
        · rcases Nat.mod_two_eq_zero_or_one pick with h2 | h2 <;>
            simp [selectedType, availableTypes_tt2, h2]
        · simp [selectedType, availableTypes_tt3, Nat.mod_one]

/-- Witness for C7's amended theorem: with both modifiers enabled in a 2D
round the selected sub-mode is not STANDARD. -/
theorem submode_selection_characterization_witness :
    selectedType true true false 3 ≠ "STANDARD" :=
  ((submode_selection_characterization true true false 3).2.2 (Or.inl rfl)).1

/-- The adaptive-difficulty state of `handleAnswer`: the current depth
(`numPremises`), the consecutive-correct counter (`progressCount`) and the
consecutive-mistake counter (`mistakeCount`). -/
structure AdaptState where
  depth : Nat
  progress : Nat
  mistakes : Nat
deriving DecidableEq

/-- One `handleAnswer` call's effect on the adaptive state.  On a correct
answer: the mistake buffer resets; with `autoProgress` on, a progress count
of at least 2 raises the depth by one and resets progress, otherwise the
progress count increments.  On an incorrect answer: the progress streak
resets; with `autoProgress` on and depth above 2, a mistake count of at
least 1 lowers the depth by one and resets mistakes, otherwise the mistake
count increments. -/
def answerStep (autoProgress : Bool) (s : AdaptState) (correct : Bool) : AdaptState :=
  if correct then
    let s1 : AdaptState := { s with mistakes := 0 }
    if autoProgress then
      if 2 ≤ s1.progress then { s1 with depth := s1.depth + 1, progress := 0 }
      else { s1 with progress := s1.progress + 1 }
    else s1
  else
    let s1 : AdaptState := { s with progress := 0 }
    if autoProgress ∧ 2 < s1.depth then
      if 1 ≤ s1.mistakes then { s1 with depth := s1.depth - 1, mistakes := 0 }
      else { s1 with mistakes := s1.mistakes + 1 }
    else s1

/-- The session's adaptive state after a list of answers, with
`autoProgress` on. -/
def runAnswers (init : AdaptState) (l : List Bool) : AdaptState :=
  l.foldl (answerStep true) init

/-- The inductive invariant of the adaptive loop: depth at least 2, a
progress counter capped at 2, a mistake counter capped at 1, and a pending
mistake only while depth exceeds 2. -/
def AdaptInv (s : AdaptState) : Prop :=
  2 ≤ s.depth ∧ s.progress ≤ 2 ∧ s.mistakes ≤ 1 ∧ (s.mistakes = 1 → 2 < s.depth)

lemma answerStep_inv (s : AdaptState) (c : Bool) (h : AdaptInv s) :
    AdaptInv (answerStep true s c) := by
  obtain ⟨h1, h2, h3, h4⟩ := h
  cases c <;> simp only [answerStep, AdaptInv] <;> split_ifs <;>
    simp_all <;> omega

lemma runAnswers_inv (init : AdaptState) (l : List Bool) (h : AdaptInv init) :
    AdaptInv (runAnswers init l) := by
  induction l generalizing init with
  | nil => exact h
  | cons b t ih =>
    have hstep := answerStep_inv init b h
    simpa [runAnswers, List.foldl_cons] using ih (answerStep true init b) hstep

/-- Claim C6: with `autoProgress` on, for every state reachable from a
session start (depth at least 2, both streak counters zero) by any answer
sequence: the depth never falls below 2; one further answer moves the depth
by exactly one in either direction or not at all; the depth increases
exactly when the answer is correct and two consecutive corrects are already
accumulated (so the increase fires on the third consecutive correct since
the last depth change or session start), and then the progress streak
resets to 0; a non-raising correct answer accumulates the progress streak;
every correct answer resets the mistake streak; the depth decreases exactly
when the answer is incorrect, the depth exceeds 2, and one mistake is
already pending (the second consecutive incorrect), and then the mistake
streak resets to 0; an incorrect answer at depth above 2 with no pending
mistake records one; an incorrect answer at depth 2 leaves the mistake
streak untouched; and every incorrect answer resets the progress streak. -/
theorem adaptive_depth_dynamics (init s : AdaptState) (l : List Bool) (c : Bool)
    (hd : 2 ≤ init.depth) (hp : init.progress = 0) (hm : init.mistakes = 0)
    (hs : s = runAnswers init l) :
    (2 ≤ s.depth) ∧
    ((answerStep true s c).depth = s.depth + 1 ∨ (answerStep true s c).depth = s.depth ∨
      (answerStep true s c).depth + 1 = s.depth) ∧
    ((answerStep true s c).depth = s.depth + 1 ↔ (c = true ∧ s.progress = 2)) ∧
    (c = true ∧ s.progress = 2 → (answerStep true s c).progress = 0) ∧
    (c = true → s.progress < 2 → (answerStep true s c).progress = s.progress + 1) ∧
    (c = true → (answerStep true s c).mistakes = 0) ∧
    ((answerStep true s c).depth + 1 = s.depth ↔
      (c = false ∧ 2 < s.depth ∧ s.mistakes = 1)) ∧
    (c = false ∧ 2 < s.depth ∧ s.mistakes = 1 → (answerStep true s c).mistakes = 0) ∧
    (c = false → 2 < s.depth → s.mistakes = 0 → (answerStep true s c).mistakes = 1) ∧
    (c = false → s.depth = 2 → (answerStep true s c).mistakes = s.mistakes) ∧
    (c = false → (answerStep true s c).progress = 0) := by
  have hinv : AdaptInv s := by
    rw [hs]
    exact runAnswers_inv init l ⟨hd, by omega, by omega, by omega⟩
  obtain ⟨h1, h2, h3, h4⟩ := hinv
  cases c <;> simp only [answerStep] <;> split_ifs <;> simp_all <;> omega

/-- Witness for C6, the spec's concrete scenario 5: starting at depth 2,
after two correct answers a third correct answer raises the depth to 3. -/
theorem adaptive_depth_dynamics_witness :
    (answerStep true (runAnswers ⟨2, 0, 0⟩ [true, true]) true).depth =
      (runAnswers ⟨2, 0, 0⟩ [true, true]).depth + 1 :=
  (adaptive_depth_dynamics ⟨2, 0, 0⟩ (runAnswers ⟨2, 0, 0⟩ [true, true]) [true, true] true
    (by decide) (by decide) (by decide) rfl).2.2.1.mpr ⟨rfl, by decide⟩

/-- The fixed pool of 24 cipher codes. -/
def CIPHER_WORDS : List String :=
  ["ZAX", "JOP", "KIV", "LUZ", "MEC", "VEX", "QOD", "WIB", "HAF", "GUK",
   "YIN", "BEX", "DUB", "ROZ", "NIX", "POK", "VOM", "JEX", "KAZ", "QUZ",
   "YEP", "WUX", "FIP", "GOZ"]

/-- The fixed 20-keyword relation set of `generateCipherKey`. -/
def cipherRelations : List String :=
  ["GREATER", "LESS", "SAME", "DIFFERENT", "CONTAINS", "INSIDE",
   "NORTH", "SOUTH", "EAST", "WEST", "ABOVE", "BELOW",
   "LEFT", "RIGHT", "FRONT", "BEHIND", "START", "FACE", "WALK", "TURN"]

/-- `generateCipherKey`: the pool is shuffled (`shuffledWords` is the
resulting permutation of `CIPHER_WORDS`, the random draw of this call) and
the i-th keyword is assigned the word at index `i mod poolSize`.  Since the
keywords are pairwise distinct, the built record is this association
list. -/
def generateCipherKey (shuffledWords : List String) : List (String × String) :=
  (List.range cipherRelations.length).map fun i =>
    (cipherRelations.getD i "", shuffledWords.getD (i % shuffledWords.length) "")

/-- Claim C9: every (re)generation of the cipher map yields an injective
mapping over the fixed 20-keyword relation set — the key column is exactly
the keyword list (each keyword maps to exactly one token), the assigned
tokens are pairwise distinct, and every token is drawn from the fixed pool
of 24 distinct cipher codes. -/
theorem generateCipherKey_injective (shuffledWords : List String)
    (hperm : List.Perm shuffledWords CIPHER_WORDS) :
    ((generateCipherKey shuffledWords).map Prod.fst = cipherRelations) ∧
    cipherRelations.Nodup ∧
    ((generateCipherKey shuffledWords).map Prod.snd).Nodup ∧
    (∀ p ∈ generateCipherKey shuffledWords, p.2 ∈ CIPHER_WORDS) ∧
    CIPHER_WORDS.Nodup ∧ CIPHER_WORDS.length = 24 := by
  have hlen : shuffledWords.length = 24 := by
    simpa using hperm.length_eq
  have hnodupW : shuffledWords.Nodup := hperm.nodup_iff.mpr (by decide)
  refine ⟨?_, by decide, ?_, ?_, by decide, by decide⟩
  · have hfst : (generateCipherKey shuffledWords).map Prod.fst =
        (List.range cipherRelations.length).map (fun i => cipherRelations.getD i "") := by
      simp [generateCipherKey, List.map_map, Function.comp]
    rw [hfst]
    decide
  · have htok : (generateCipherKey shuffledWords).map Prod.snd =
        (List.range cipherRelations.length).map (fun i => shuffledWords.getD i "") := by
      simp only [generateCipherKey, List.map_map]
      apply List.map_congr_left
      intro i hi
      have hi20 : i < 20 := by simpa [cipherRelations] using List.mem_range.mp hi
      simp [Function.comp, hlen, Nat.mod_eq_of_lt (by omega : i < 24)]
    rw [htok]
    apply List.Nodup.map_on ?_ (List.nodup_range _)
    intro x hx y hy hxy
    have hx20 : x < 20 := by simpa [cipherRelations] using List.mem_range.mp hx
    have hy20 : y < 20 := by simpa [cipherRelations] using List.mem_range.mp hy
    have hx' : x < shuffledWords.length := by omega
    have hy' : y < shuffledWords.length := by omega
    rw [List.getD_eq_getElem _ _ hx', List.getD_eq_getElem _ _ hy'] at hxy
    exact (List.Nodup.getElem_inj_iff hnodupW).mp hxy
  · intro p hp
    simp only [generateCipherKey, List.mem_map] at hp
    obtain ⟨i, hi, rfl⟩ := hp
    have hpos : 0 < shuffledWords.length := by omega
    exact hperm.subset (getD_mem_of_lt _ _ _ (Nat.mod_lt _ hpos))

/-- Witness for C9: the identity shuffle of the pool already yields a map
with the keyword list as key column and pairwise-distinct tokens. -/
theorem generateCipherKey_injective_witness :
    ((generateCipherKey CIPHER_WORDS).map Prod.snd).Nodup ∧
    (generateCipherKey CIPHER_WORDS).map Prod.fst = cipherRelations :=
  ⟨(generateCipherKey_injective CIPHER_WORDS (List.Perm.refl _)).2.2.1,
   (generateCipherKey_injective CIPHER_WORDS (List.Perm.refl _)).1⟩

/-- Claim C10 (implicit): for every generated round, the returned premise
list is `shuffleArray` applied to the premises built in chain order — a
permutation, so the multiset of premises is preserved and the list has
exactly one entry per link (`numPremises` entries, the length of the
per-link random-draw list), for each of the four premise-building
generators. -/
theorem premises_shuffled_permutation (shuffle : List Premise → List Premise)
    (items : List String) (rels sames : List Bool) (dirs : List Nat)
    (num idxA idxB : Nat) (v0 qGreater qSame askInside isNight coin is3D : Bool)
    (pick : Nat) (fake : String)
    (hs : ∀ l, List.Perm (shuffle l) l) :
    (List.Perm (generateLinear shuffle items rels idxA idxB qGreater isNight).premises
        (linearChainPremises items rels) ∧
      (generateLinear shuffle items rels idxA idxB qGreater isNight).premises.length =
        rels.length) ∧
    (List.Perm
        (generateDistinction shuffle items v0 sames idxA idxB qSame isNight).premises
        (distinctionChainPremises items sames) ∧
      (generateDistinction shuffle items v0 sames idxA idxB qSame isNight).premises.length =
        sames.length) ∧
    (List.Perm (generateHierarchy shuffle items num idxA idxB askInside isNight).premises
        (hierarchyChainPremises items num) ∧
      (generateHierarchy shuffle items num idxA idxB askInside isNight).premises.length =
        num) ∧
    (List.Perm
        (generateSpatialStandard shuffle items dirs is3D idxA idxB isNight coin pick fake).1
        (spatialChainPremises items dirs) ∧
      (generateSpatialStandard shuffle items dirs is3D idxA idxB isNight coin pick fake).1.length =
        dirs.length) := by
  refine ⟨⟨hs _, ?_⟩, ⟨hs _, ?_⟩, ⟨hs _, ?_⟩, ⟨hs _, ?_⟩⟩
  · show (shuffle (linearChainPremises items rels)).length = rels.length
    rw [List.Perm.length_eq (hs _)]
    simp [linearChainPremises]
  · show (shuffle (distinctionChainPremises items sames)).length = sames.length
    rw [List.Perm.length_eq (hs _)]
    simp [distinctionChainPremises]
  · show (shuffle (hierarchyChainPremises items num)).length = num
    rw [List.Perm.length_eq (hs _)]
    simp [hierarchyChainPremises]
  · show (shuffle (spatialChainPremises items dirs)).length = dirs.length
    rw [List.Perm.length_eq (hs _)]
    simp [spatialChainPremises]

/-- Witness for C10: with the identity permutation as the drawn shuffle,
a one-step spatial round's premise list is a permutation of its chain and a
one-link linear round has exactly one premise. -/
theorem premises_shuffled_permutation_witness :
    List.Perm (generateSpatialStandard id ["A", "B"] [0] false 0 1 false true 0 "EAST").1
      (spatialChainPremises ["A", "B"] [0]) ∧
    (generateLinear id ["A", "B"] [true] 0 1 true false).premises.length = 1 :=
  ⟨(premises_shuffled_permutation id ["A", "B"] [true] [] [0] 0 0 1 true true false false
      false true false 0 "EAST" (fun l => List.Perm.refl l)).2.2.2.1,
   (premises_shuffled_permutation id ["A", "B"] [true] [] [0] 0 0 1 true true false false
      false true false 0 "EAST" (fun l => List.Perm.refl l)).1.2⟩

end RftArchitect
